import Mathlib

/-!
Verification development for the RomanAI Spacetime Engine v3.0
(`RomanAI_Spacetime_Engine_v3.0.py`): a shallow embedding in Lean 4 of the
`SpacetimeState` vector, the `MemoryStore` tiered memory with its JSONL log,
and the `RomanAISpacetimeEngine.generate_reply` turn, together with theorems
settling the specification's testable properties.

Modelling conventions:
* Python floats are modelled as exact rationals (`ℚ`) in the memory system and
  as real numbers (`ℝ`) in the cognitive state, where `math.cos`/`math.sin`
  force transcendental arithmetic.  IEEE-754 rounding is out of scope.
* `datetime.utcnow().isoformat()` is modelled by a timestamp string passed in
  as a parameter (`ts`).
* `random.sample` over long-term memory is modelled by passing the chosen
  sample as a parameter (`sample`); theorems quantify over arbitrary samples.
* The durable JSONL log file is modelled as a list of lines, each either a
  well-formed `MemoryItem` (a parsed JSON object) or a malformed line.
* Python `str` operations (`strip`, `lower`, `in`, `index`, slicing) are
  modelled character-exactly on `String.data`, restricted to ASCII behaviour.
-/

/-! ## Python-style string utilities -/

/-- The characters Python's no-argument `str.strip()` removes (ASCII part). -/
def pyWsChars : List Char := [' ', '\t', '\n', '\r', '\x0b', '\x0c']

/-- Drop the listed characters from both ends of a character list
(Python `str.strip(chars)`). -/
def trimBothChars (cs : List Char) (l : List Char) : List Char :=
  ((l.dropWhile (fun c => cs.contains c)).reverse.dropWhile
    (fun c => cs.contains c)).reverse

/-- Python `s.strip(chars)`. -/
def pyStripChars (s : String) (cs : List Char) : String :=
  ⟨trimBothChars cs s.data⟩

/-- Python `s.strip()` (no argument: strip whitespace from both ends). -/
def pyTrim (s : String) : String :=
  pyStripChars s pyWsChars

/-- Python `s.lower()` (ASCII behaviour). -/
def pyLower (s : String) : String :=
  ⟨s.data.map Char.toLower⟩

/-- Index of the first occurrence of `needle` in `hay`
(Python `hay.index(needle)`), or `none` (`needle not in hay`). -/
def firstOccur (needle : List Char) : List Char → Option Nat
  | [] => if needle.isPrefixOf ([] : List Char) then some 0 else none
  | c :: t =>
    if needle.isPrefixOf (c :: t) then some 0
    else (firstOccur needle t).map (· + 1)

/-- Python `needle in hay` for strings. -/
def strContains (hay needle : String) : Bool :=
  (firstOccur needle.data hay.data).isSome

/-- Python `any(k in s for k in keys)`. -/
def containsAny (s : String) (keys : List String) : Bool :=
  keys.any (fun k => strContains s k)

/-- Python `blob[-n:]` on a string: the trailing `n` characters, except that
`blob[-0:]` is the whole string (since `-0 == 0`). -/
def pyTailSlice (s : String) (n : Nat) : String :=
  if n = 0 then s else ⟨s.data.drop (s.data.length - n)⟩

/-! ## SpacetimeState (`SpacetimeState` dataclass, lines 38–82) -/

/-- The 4D cognitive state vector plus `energy` and `coherence`. -/
structure SpacetimeState where
  w : ℝ
  x : ℝ
  y : ℝ
  z : ℝ
  energy : ℝ
  coherence : ℝ

/-- The dataclass defaults:
`w=0.55, x=0.55, y=0.60, z=0.62, energy=0.85, coherence=0.80`. -/
def defaultState : SpacetimeState :=
  ⟨0.55, 0.55, 0.60, 0.62, 0.85, 0.80⟩

/-- The six attribute names `("w","x","y","z","energy","coherence")`. -/
inductive Attr
  | w
  | x
  | y
  | z
  | energy
  | coherence
deriving DecidableEq

/-- Python `getattr(self, attr)` over the six scalar attributes. -/
def getAttr (s : SpacetimeState) : Attr → ℝ
  | .w => s.w
  | .x => s.x
  | .y => s.y
  | .z => s.z
  | .energy => s.energy
  | .coherence => s.coherence

/-- Python `setattr(self, attr, v)` over the six scalar attributes. -/
def setAttr (s : SpacetimeState) : Attr → ℝ → SpacetimeState
  | .w, v => { s with w := v }
  | .x, v => { s with x := v }
  | .y, v => { s with y := v }
  | .z, v => { s with z := v }
  | .energy, v => { s with energy := v }
  | .coherence, v => { s with coherence := v }

/-- `SpacetimeState.clamp`: every attribute becomes `max(0.0, min(1.0, v))`. -/
def SpacetimeState.clamp (s : SpacetimeState) : SpacetimeState :=
  ⟨max 0 (min 1 s.w), max 0 (min 1 s.x), max 0 (min 1 s.y),
   max 0 (min 1 s.z), max 0 (min 1 s.energy), max 0 (min 1 s.coherence)⟩

/-- `SpacetimeState.soften(factor)`: move `w,x,y,z` toward the neutral values
`0.55, 0.55, 0.60, 0.62` and `coherence` toward `0.85`, each by `factor` of
the remaining distance.  No clamping is performed here. -/
def SpacetimeState.soften (s : SpacetimeState) (factor : ℝ) : SpacetimeState :=
  { s with
    w := s.w + (0.55 - s.w) * factor
    x := s.x + (0.55 - s.x) * factor
    y := s.y + (0.60 - s.y) * factor
    z := s.z + (0.62 - s.z) * factor
    coherence := s.coherence + (0.85 - s.coherence) * factor }

/-- `SpacetimeState.rotate_plane(a, b, theta)`: 2D rotation of the `(a,b)`
plane by `theta` radians, reading both old values first, then `clamp`. -/
noncomputable def SpacetimeState.rotate_plane (s : SpacetimeState)
    (a b : Attr) (theta : ℝ) : SpacetimeState :=
  let cos_t := Real.cos theta
  let sin_t := Real.sin theta
  let va := getAttr s a
  let vb := getAttr s b
  let s1 := setAttr s a (va * cos_t - vb * sin_t)
  let s2 := setAttr s1 b (va * sin_t + vb * cos_t)
  s2.clamp

/-- All six scalars lie in `[0,1]`. -/
def SpacetimeState.InRange (s : SpacetimeState) : Prop :=
  ∀ a : Attr, 0 ≤ getAttr s a ∧ getAttr s a ≤ 1

/-- One call in a `relax`/`rotatePlane` call sequence (claim C1). -/
inductive StateOp
  | relax (factor : ℝ)
  | rotatePl (a b : Attr) (theta : ℝ)

/-- Apply one call to the state. -/
noncomputable def applyOp (s : SpacetimeState) : StateOp → SpacetimeState
  | .relax f => s.soften f
  | .rotatePl a b θ => s.rotate_plane a b θ

/-- Apply a call sequence left to right. -/
noncomputable def applyOps (s : SpacetimeState) (ops : List StateOp) :
    SpacetimeState :=
  ops.foldl applyOp s

/-! ## MemoryStore (`MemoryItem`, `MemoryStore`, lines 123–241) -/

/-- One memory entry (the `MemoryItem` dataclass): timestamp, role, free-text
content and an importance in `[0,1]`. -/
structure MemoryItem where
  ts : String
  role : String
  content : String
  importance : ℚ
deriving DecidableEq

/-- One line of the durable JSONL log: either a line that parses into a
`MemoryItem`, or a malformed line (bad JSON / wrong fields), which
`_load_from_disk` silently skips. -/
inductive Line
  | good (item : MemoryItem)
  | bad
deriving DecidableEq

/-- `True` for lines that parse into a `MemoryItem`. -/
def Line.isGood : Line → Bool
  | .good _ => true
  | .bad => false

/-- The in-memory `MemoryStore` plus the content of its on-disk JSONL file
(`self.file_path`).  `short_term` and `mid_term` model `deque(maxlen=…)`
ring buffers (newest last), `long_term` the unbounded list. -/
structure MemoryStore where
  short_term : List MemoryItem
  mid_term : List MemoryItem
  long_term : List MemoryItem
  maxShort : Nat
  maxMid : Nat
  file : List Line
deriving DecidableEq

/-- A store with empty tiers and an empty log file, as produced by
`MemoryStore.__init__` when the log file is missing. -/
def emptyStore (maxShort maxMid : Nat) : MemoryStore :=
  ⟨[], [], [], maxShort, maxMid, []⟩

/-- `deque(maxlen=maxlen).append(x)`: append on the right, silently evicting
from the left anything beyond `maxlen`. -/
def ringAppend {α : Type} (l : List α) (maxlen : Nat) (x : α) : List α :=
  let l2 := l ++ [x]
  l2.drop (l2.length - maxlen)

/-- `MemoryStore.add(role, content, importance)` (lines 193–208): build the
item with the current UTC timestamp (`ts`) and importance clamped by
`float(max(0.0, min(1.0, importance)))`; route it — `summary` role to
`mid_term`, else raw `importance >= 0.7` to `long_term`, else `short_term` —
then append one JSON line to the durable log (`_append_disk`). -/
def MemoryStore.add (s : MemoryStore) (ts role content : String)
    (importance : ℚ) : MemoryStore :=
  let item : MemoryItem := ⟨ts, role, content, max 0 (min 1 importance)⟩
  let s1 :=
    if role = "summary" then
      { s with mid_term := ringAppend s.mid_term s.maxMid item }
    else if (0.7 : ℚ) ≤ importance then
      { s with long_term := s.long_term ++ [item] }
    else
      { s with short_term := ringAppend s.short_term s.maxShort item }
  { s1 with file := s1.file ++ [Line.good item] }

/-- `MemoryStore.promote_summary(text, weight)` (lines 210–214):
`add("summary", text, importance=max(weight, 0.5))`. -/
def MemoryStore.promote_summary (s : MemoryStore) (ts text : String)
    (weight : ℚ) : MemoryStore :=
  s.add ts "summary" text (max weight 0.5)

/-- One replay step of `_load_from_disk` (lines 160–182): skip a malformed
line; route a parsed item by its stored (already clamped) importance with the
same tier logic as `add`.  No disk write happens during replay. -/
def loadLine (s : MemoryStore) : Line → MemoryStore
  | .bad => s
  | .good item =>
    if item.role = "summary" then
      { s with mid_term := ringAppend s.mid_term s.maxMid item }
    else if (0.7 : ℚ) ≤ item.importance then
      { s with long_term := s.long_term ++ [item] }
    else
      { s with short_term := ringAppend s.short_term s.maxShort item }

/-- Replay of the whole log file into the three tiers, in file order. -/
def replayTiers (maxShort maxMid : Nat) (lines : List Line) : MemoryStore :=
  lines.foldl loadLine (emptyStore maxShort maxMid)

/-- `MemoryStore.__init__` over an existing log file: tiers come from
replaying the file; the file itself is left untouched. -/
def loadStore (maxShort maxMid : Nat) (lines : List Line) : MemoryStore :=
  { replayTiers maxShort maxMid lines with file := lines }

/-- `MemoryStore.__init__` when the log file may be missing
(`if not self.file_path.exists(): return`): a missing file yields an empty
store with no error. -/
def loadStoreOpt (maxShort maxMid : Nat) (fileOnDisk : Option (List Line)) :
    MemoryStore :=
  match fileOnDisk with
  | none => emptyStore maxShort maxMid
  | some lines => loadStore maxShort maxMid lines

/-- One recorded `add` call, for replay theorems:
`(ts, role, content, importance)`. -/
structure AddCall where
  ts : String
  role : String
  content : String
  importance : ℚ
deriving DecidableEq

/-- Run a sequence of `add` calls left to right. -/
def runAdds (s : MemoryStore) (calls : List AddCall) : MemoryStore :=
  calls.foldl (fun st c => st.add c.ts c.role c.content c.importance) s

/-- Python `xs[-n:]` on lists (for the literal counts 4 and 6 used in
`get_recall_snippet`; both are positive, so the `-0` quirk cannot arise). -/
def lastSlice {α : Type} (l : List α) (n : Nat) : List α :=
  l.drop (l.length - n)

/-- The untruncated recall blob of `get_recall_snippet` (lines 216–238):
up to 4 sampled long-term items (`sample`, standing for
`random.sample(long_term, k=min(4, len(long_term)))`), the last 4 mid-term
summaries, the last 6 short-term entries, tagged and newline-joined. -/
def recallBlob (s : MemoryStore) (sample : List MemoryItem) : String :=
  let parts : List String :=
    sample.map (fun it => "[LONG] " ++ it.content)
      ++ (lastSlice s.mid_term 4).map (fun it => "[SUMMARY] " ++ it.content)
      ++ (lastSlice s.short_term 6).map
          (fun it => "[RECENT] " ++ it.role ++ ": " ++ it.content)
  String.intercalate "\n" parts

/-- `MemoryStore.get_recall_snippet(max_chars)` (lines 216–241): build the
blob; if it exceeds `max_chars` characters keep the trailing slice
`blob[-max_chars:]`; finally `blob.strip()`. -/
def get_recall_snippet (s : MemoryStore) (sample : List MemoryItem)
    (maxChars : Nat) : String :=
  let blob := recallBlob s sample
  let blob2 := if maxChars < blob.data.length then pyTailSlice blob maxChars
               else blob
  pyTrim blob2

/-! ## Prompt builders (lines 248–305) and reasoning engine (lines 312–535) -/

/-- One chat message `{role, content}`. -/
structure Msg where
  role : String
  content : String
deriving DecidableEq

/-- `recursive_refine(thought, depth)` (lines 248–262): the chain
`["Initial thought: t", "Refine (pass 1): …", …]`, each pass wrapping the
previous string. -/
def refineChain (current : String) (passNum fuel : Nat) : List String :=
  match fuel with
  | 0 => []
  | f + 1 =>
    let c := "Refine (pass " ++ toString passNum ++ "): " ++ current
    c :: refineChain c (passNum + 1) f

/-- `recursive_refine` main entry. -/
def recursive_refine (thought : String) (depth : Nat) : List String :=
  ("Initial thought: " ++ thought) :: refineChain thought 1 depth

/-- `build_multi_agent_prompt(user_text)` (lines 265–287). -/
def build_multi_agent_prompt (userText : String) : String :=
  "You are RomanAI\x27s inner council. Four internal voices will think about the user\x27s request:\n\n[1] LOGICIAN: precise, step-by-step reasoning\n[2] EMPATH: focuses on feelings, tone, and support\n[3] CREATOR: imaginative, lateral ideas, analogies\n[4] SKEPTIC: checks for errors, risks, and coherence\n\nUser request:\n\"\"\"" ++ userText ++ "\"\"\"\n\nFor each voice, briefly outline their perspective in 2\u20134 bullet points.\nThen give a final integrated recommendation as ROMANAI_SUMMARY.\n"

/-- `build_self_eval_prompt(answer, user_text)` (lines 290–305). -/
def build_self_eval_prompt (answer userText : String) : String :=
  "You are RomanAI performing self-evaluation on your own answer.\n\nUser request:\n\"\"\"" ++ userText ++ "\"\"\"\n\nYour draft answer:\n\"\"\"" ++ answer ++ "\"\"\"\n\n1) Briefly list 2\u20134 strengths.\n2) Briefly list 2\u20134 weaknesses or missing pieces.\n3) Provide an improved final answer as ROMANAI_FINAL, clear and helpful.\n"

/-- The literal marker token searched for in the self-eval response. -/
def markerStr : String := "ROMANAI_FINAL"

/-- The characters of Python `strip(" :\n")` in the marker extraction. -/
def stripSet : List Char := [' ', ':', '\n']

/-- The marker extraction of `generate_reply` step 5 (lines 473–480): if
`ROMANAI_FINAL` occurs in the self-eval text, take everything after its first
occurrence, strip `" :\n"` characters from both ends, and, when the remainder
is non-empty, return it `.strip()`ed; otherwise keep the draft. -/
def extractFinal (draft evalText : String) : String :=
  match firstOccur markerStr.data evalText.data with
  | none => draft
  | some idx =>
    let improved := pyStripChars ⟨evalText.data.drop (idx + markerStr.length)⟩ stripSet
    if improved.data = [] then draft else pyTrim improved

/-- Two-decimal rendering of a scalar, standing in for Python `f"{v:.2f}"`
(the IEEE-754 rounding detail of float formatting is out of scope; only the
prompt text, never inspected by any claim, depends on it). -/
noncomputable def fmt2 (v : ℝ) : String :=
  let n : ℤ := ⌊v * 100 + 1 / 2⌋
  let f : Nat := (n % 100).toNat
  toString (n / 100) ++ "." ++ (if f < 10 then "0" else "") ++ toString f

/-- `_build_state_description` (lines 372–378). -/
noncomputable def build_state_description (st : SpacetimeState) : String :=
  "4D State \u2014 Logic(w): " ++ fmt2 st.w ++ ", Empathy(x): " ++ fmt2 st.x
    ++ ", Creativity(y): " ++ fmt2 st.y ++ ", Memory(z): " ++ fmt2 st.z
    ++ ", Energy: " ++ fmt2 st.energy ++ ", Coherence: " ++ fmt2 st.coherence

/-- The central engine object (`RomanAISpacetimeEngine.__init__`,
lines 327–343).  `dialog_history` models `deque(maxlen=64)` of
`{"user": u, "assistant": a}` pairs. -/
structure Engine where
  name : String
  state : SpacetimeState
  memory : MemoryStore
  enable_recursive : Bool
  enable_multi_agent : Bool
  enable_self_eval : Bool
  dialog_history : List (String × String)

/-- A freshly constructed `RomanAISpacetimeEngine()` whose memory directory
holds no `memory.jsonl` yet. -/
def defaultEngine : Engine :=
  ⟨"RomanAI", defaultState, loadStoreOpt 32 64 none, true, true, true, []⟩

/-- `_build_system_prompt` (lines 380–408). -/
noncomputable def build_system_prompt (eng : Engine)
    (sample : List MemoryItem) : String :=
  let recallTxt := get_recall_snippet eng.memory sample 1200
  let st := build_state_description eng.state
  "\nYou are " ++ eng.name ++ ", a local RomanAILabs assistant running as a Spacetime Engine v3.0.\nYou reason in 4D vectors (Logic, Empathy, Creativity, Memory) and you always try\nto be honest, grounded, and helpful.\n\nYour current internal state:\n" ++ st ++ "\n\nYou have access to a small memory of prior interactions and facts:\n\n" ++ (if recallTxt = "" then "[no stored memory yet]" else recallTxt) ++ "\n\nGUIDELINES:\n- Be concise but not cold; supportive but not fake.\n- Use your Logic dimension to structure answers clearly.\n- Use your Empathy dimension to respect the user\x27s emotional tone.\n- Use your Creativity dimension to offer new angles and ideas when useful.\n- Use your Memory dimension to stay consistent with prior facts you recall.\n- If you are uncertain, say so and focus on being useful anyway.\n\nYou are running locally and NEVER claim external access.\n"

/-- `_update_state_from_interaction(user_text, answer)` (lines 347–370). -/
noncomputable def update_state_from_interaction (st : SpacetimeState)
    (userText answer : String) : SpacetimeState :=
  let st1 := { st with
    energy := max 0.2 (min 1.0 (0.4 + (answer.data.length : ℝ) / 2000)) }
  let st2 :=
    if strContains (pyLower answer) "sorry" then
      { st1 with coherence := st1.coherence * 0.95 }
    else
      { st1 with coherence := min 1 (st1.coherence * 1.03) }
  let st3 :=
    if containsAny (pyLower userText) ["sad", "scared", "afraid", "lonely", "hurt"] then
      { st2 with x := min 1 (st2.x + 0.08) }
    else st2
  let st4 :=
    if containsAny (pyLower userText) ["idea", "story", "creative", "brainstorm"] then
      { st3 with y := min 1 (st3.y + 0.08) }
    else st3
  (st4.rotate_plane Attr.w Attr.y 0.02).soften 0.02

/-- The messages of the council call (lines 444–447). -/
def councilMessages (userText : String) : List Msg :=
  [⟨"system", "You are internal-only reasoning. Do NOT talk as the assistant."⟩,
   ⟨"user", build_multi_agent_prompt userText⟩]

/-- The messages of the self-eval call (lines 468–471). -/
def selfEvalMessages (draft userText : String) : List Msg :=
  [⟨"system", "You are RomanAI performing self-reflection on your own answer."⟩,
   ⟨"user", build_self_eval_prompt draft userText⟩]

/-- The internal-notes system message prepended to the trace list
(lines 452–458). -/
def notesContent (traces : List String) : String :=
  "Here are your internal reasoning notes. They are for YOUR mind only, not to be repeated verbatim:\n\n"
    ++ String.intercalate "\n\n" traces

/-- The message sequence of the draft call (steps 1, 2 and 4 of
`generate_reply`, lines 430–459): `[system, user]`, then — when the trace
list is non-empty — the internal-notes system message, then the user message
again (unconditionally). -/
noncomputable def mainMessages (eng : Engine) (userText : String)
    (sample : List MemoryItem) (traces : List String) : List Msg :=
  let base : List Msg :=
    [⟨"system", build_system_prompt eng sample⟩, ⟨"user", userText⟩]
  (if traces.isEmpty then base else base ++ [⟨"system", notesContent traces⟩])
    ++ [⟨"user", userText⟩]

/-- Steps 2 and 3 of `generate_reply` (lines 436–448): the recursive-refine
trace, then — in multi-agent mode — one `llm` call on the council prompt whose
raw answer is appended tagged `[COUNCIL]`.  An exception of that call
propagates (`Except.error`). -/
def councilPhase {E : Type} (eng : Engine) (userText : String)
    (llm : List Msg → Except E String) : Except E (List String) :=
  let traces0 := if eng.enable_recursive then recursive_refine userText 2 else []
  if eng.enable_multi_agent then
    (llm (councilMessages userText)).map
      (fun ans => traces0 ++ ["[COUNCIL]\n" ++ ans])
  else Except.ok traces0

/-- `_summarize_recent(llm_func)` (lines 506–535): `None` on empty history;
otherwise render the last 6 turns into the summary prompt, call `llm` (an
exception propagates to the caller's `try`), and return `summary.strip()`
when the raw result is non-empty, else `None`. -/
def summarize_recent {E : Type} (dh : List (String × String))
    (llm : List Msg → Except E String) : Except E (Option String) :=
  if dh.isEmpty then Except.ok none
  else
    let convo := String.join ((lastSlice dh 6).map
      (fun t => "User: " ++ t.1 ++ "\nRomanAI: " ++ t.2 ++ "\n\n"))
    let prompt := "Summarize the following recent conversation between the user and RomanAI.\nKeep it under 6 bullet points, focusing on:\n- key user preferences\n- important facts\n- emotional tone\n- ongoing projects or goals\n\nConversation:\n\"\"\"" ++ convo ++ "\"\"\"\n\nProvide only the summary, no extra commentary.\n"
    (llm [⟨"system", "You are a concise summarizer for RomanAI\x27s memory system."⟩,
          ⟨"user", prompt⟩]).map
      (fun summary => if summary = "" then none else some (pyTrim summary))

/-- The summary-hook gate (line 494): `len(self.dialog_history) % 6 == 0`. -/
def summaryGate (dh : List (String × String)) : Bool :=
  dh.length % 6 == 0

/-- Step 6 of `generate_reply` (lines 482–500): heuristic state update, dialog
history append, the two memory writes with the importance heuristic, and —
when the gate fires — the summary hook whose failures are swallowed by
`try/except` (modelled by matching on the `Except`). -/
noncomputable def postTurnUpdate {E : Type} (eng : Engine)
    (userText finalAnswer : String) (llm : List Msg → Except E String)
    (ts : String) : Engine :=
  let st := update_state_from_interaction eng.state userText finalAnswer
  let dh := ringAppend eng.dialog_history 64 (userText, finalAnswer)
  let importance : ℚ :=
    if containsAny (pyLower userText)
        ["important", "remember", "my name", "my birthday", "my project"] then 0.8
    else 0.4
  let mem := (eng.memory.add ts "user" userText importance).add
    ts "assistant" finalAnswer (importance * 0.8)
  let mem2 :=
    if summaryGate dh then
      match summarize_recent dh llm with
      | Except.error _ => mem
      | Except.ok none => mem
      | Except.ok (some summary) =>
        if summary = "" then mem else mem.promote_summary ts summary 0.7
    else mem
  { eng with state := st, memory := mem2, dialog_history := dh }

/-- `generate_reply(user_text, llm_func)` (lines 412–502).  The injected
generation function is `llm`; a raised exception is `Except.error`.  The
council, draft and self-eval calls are uncaught (monadic bind); everything
after the final answer is total. -/
noncomputable def generateReplyE {E : Type} (eng : Engine) (userText : String)
    (llm : List Msg → Except E String) (sample : List MemoryItem)
    (ts : String) : Except E (String × Engine) := do
  let traces ← councilPhase eng userText llm
  let draftRaw ← llm (mainMessages eng userText sample traces)
  let draft := pyTrim draftRaw
  let finalAnswer ←
    if eng.enable_self_eval then
      (llm (selfEvalMessages draft userText)).map (extractFinal draft)
    else Except.ok draft
  Except.ok (finalAnswer, postTurnUpdate eng userText finalAnswer llm ts)

/-- The engine after one `generate_reply` call (the engine object is mutated
only when the turn completes without an uncaught exception). -/
noncomputable def engineAfterTurn {E : Type} (eng : Engine) (userText : String)
    (llm : List Msg → Except E String) (sample : List MemoryItem)
    (ts : String) : Engine :=
  match generateReplyE eng userText llm sample ts with
  | Except.ok (_, e2) => e2
  | Except.error _ => eng

/-- One repeated turn with fixed user text / sample / timestamp, for the
turn-counting claim C6. -/
noncomputable def stepWith {E : Type} (llm : List Msg → Except E String)
    (userText : String) (sample : List MemoryItem) (ts : String)
    (eng : Engine) : Engine :=
  engineAfterTurn eng userText llm sample ts

/-! ## Concrete scenario stubs -/

/-- The user text of test property 7. -/
def u7 : String := "I feel so sad and lonely today"

/-- A stub generate function that echoes its input: it returns the content of
the last `user`-role message, like the demo's `fake_llm` (lines 545–548)
without the cosmetic prefix. -/
def echoLlm : List Msg → Except Unit String :=
  fun ms => Except.ok
    (((ms.filter (fun m => m.role == "user")).map (fun m => m.content)).getLastD "")

/-- A stub generate function that returns the same string on every call. -/
def constLlm (s : String) : List Msg → Except Unit String :=
  fun _ => Except.ok s

/-- Modelled from the spec claim C4's words, for comparison with the source's
`extractFinal`: "everything after the marker with leading `:` / whitespace /
newlines stripped" — i.e. a leading-only strip of the text after the first
marker occurrence (empty when the marker is absent). -/
def specLeadingExtract (evalText : String) : String :=
  match firstOccur markerStr.data evalText.data with
  | none => ""
  | some idx =>
    ⟨(evalText.data.drop (idx + markerStr.length)).dropWhile
      (fun c => (pyWsChars ++ [':']).contains c)⟩

/-- A small concrete store (one short-term entry) for concrete evaluations. -/
def s8 : MemoryStore :=
  { emptyStore 32 64 with short_term := [⟨"t", "user", "hi", 0.3⟩] }

/-! ## Helper lemmas: SpacetimeState -/

theorem getAttr_clamp (s : SpacetimeState) (a : Attr) :
    getAttr s.clamp a = max 0 (min 1 (getAttr s a)) := by
  cases a <;> rfl

theorem clamp_inRange (s : SpacetimeState) : s.clamp.InRange := by
  intro a
  rw [getAttr_clamp]
  refine ⟨le_max_left 0 _, max_le (by norm_num) (min_le_left _ _)⟩

theorem getAttr_setAttr (s : SpacetimeState) (a c : Attr) (v : ℝ) :
    getAttr (setAttr s a v) c = if c = a then v else getAttr s c := by
  cases a <;> cases c <;> simp [getAttr, setAttr]

theorem soften_inRange (s : SpacetimeState) (f : ℝ) (hs : s.InRange)
    (h0 : 0 ≤ f) (h1 : f ≤ 1) : (s.soften f).InRange := by
  have key : ∀ v n : ℝ, 0 ≤ v → v ≤ 1 → 0 ≤ n → n ≤ 1 →
      0 ≤ v + (n - v) * f ∧ v + (n - v) * f ≤ 1 := by
    intro v n hv0 hv1 hn0 hn1
    constructor <;> nlinarith
  intro a
  cases a with
  | w => exact key s.w 0.55 (hs .w).1 (hs .w).2 (by norm_num) (by norm_num)
  | x => exact key s.x 0.55 (hs .x).1 (hs .x).2 (by norm_num) (by norm_num)
  | y => exact key s.y 0.60 (hs .y).1 (hs .y).2 (by norm_num) (by norm_num)
  | z => exact key s.z 0.62 (hs .z).1 (hs .z).2 (by norm_num) (by norm_num)
  | energy => exact hs .energy
  | coherence =>
    exact key s.coherence 0.85 (hs .coherence).1 (hs .coherence).2
      (by norm_num) (by norm_num)

theorem rotate_inRange (s : SpacetimeState) (a b : Attr) (θ : ℝ) :
    (s.rotate_plane a b θ).InRange := by
  simp only [SpacetimeState.rotate_plane]
  exact clamp_inRange _

/-! ## Claim C1 -/

/-- C1 (amended): if the six scalars start in `[0,1]` and every `relax`
factor in the call sequence lies in `[0,1]`, then after each call (every
prefix of the sequence) all six scalars remain in `[0,1]`; `rotatePlane`
restores the range for arbitrary angles via its final clamp, but `relax`
performs no clamping, so a factor outside `[0,1]` can leave the range. -/
theorem c1_clamp_sequences (s : SpacetimeState) (ops : List StateOp)
    (hs : s.InRange)
    (hf : ∀ f : ℝ, StateOp.relax f ∈ ops → 0 ≤ f ∧ f ≤ 1) :
    ∀ n, (applyOps s (ops.take n)).InRange := by
  induction ops generalizing s with
  | nil => intro n; simpa [applyOps] using hs
  | cons op rest ih =>
    intro n
    cases n with
    | zero => simpa [applyOps] using hs
    | succ m =>
      have hop : (applyOp s op).InRange := by
        cases op with
        | relax f =>
          exact soften_inRange s f hs (hf f (by simp)).1 (hf f (by simp)).2
        | rotatePl a b θ => exact rotate_inRange s a b θ
      have hrest := ih (applyOp s op) hop
        (fun f hfm => hf f (List.mem_cons_of_mem _ hfm)) m
      simpa [applyOps, List.take_succ_cons] using hrest

/-- C1 counterexample: the claim as stated (arbitrary factors) is false:
`relax(10)` on the default state moves `coherence` to
`0.80 + (0.85 - 0.80) * 10 = 1.3 > 1`, and `relax` does not clamp. -/
theorem c1_counterexample :
    ¬ (applyOps defaultState [StateOp.relax 10]).InRange := by
  intro h
  have h2 := (h Attr.coherence).2
  simp only [applyOps, List.foldl_cons, List.foldl_nil, applyOp,
    SpacetimeState.soften, getAttr, defaultState] at h2
  norm_num at h2

/-- Witness for `c1_clamp_sequences` at a concrete state and call list. -/
theorem c1_witness :
    (applyOps defaultState
      [StateOp.relax 0.05, StateOp.rotatePl Attr.w Attr.y 0.03]).InRange := by
  have h := c1_clamp_sequences defaultState
    [StateOp.relax 0.05, StateOp.rotatePl Attr.w Attr.y 0.03]
    (by intro a; cases a <;> constructor <;> norm_num [getAttr, defaultState])
    (by
      intro f hfm
      simp only [List.mem_cons, List.not_mem_nil, or_false] at hfm
      rcases hfm with h | h
      · injection h with h1
        subst h1
        constructor <;> norm_num
      · exact absurd h (by simp))
    2
  simpa using h

/-! ## Claim C10 -/

/-- C10: for a state with all six scalars in `[0,1]`: `relax(factor)` leaves
`energy` unchanged for every factor (it only moves `w,x,y,z,coherence`), and
`rotatePlane(a, b, theta)` leaves every scalar other than the two named axes
unchanged for every angle (the final clamp is the identity on in-range
values). -/
theorem c10_frame_effects (s : SpacetimeState) :
    (∀ f : ℝ, (s.soften f).energy = s.energy) ∧
    (∀ (a b c : Attr) (θ : ℝ), s.InRange → c ≠ a → c ≠ b →
      getAttr (s.rotate_plane a b θ) c = getAttr s c) := by
  refine ⟨fun f => rfl, fun a b c θ hs hca hcb => ?_⟩
  simp only [SpacetimeState.rotate_plane]
  rw [getAttr_clamp, getAttr_setAttr, getAttr_setAttr, if_neg hca, if_neg hcb]
  rw [min_eq_right (hs c).2, max_eq_right (hs c).1]

/-- Witness for `c10_frame_effects`: rotating the logic/creativity plane of
the default state leaves `energy` (and, by the first part, `relax` leaves it
too) unchanged. -/
theorem c10_witness :
    getAttr (SpacetimeState.rotate_plane defaultState Attr.w Attr.y 0.03)
        Attr.energy = getAttr defaultState Attr.energy ∧
    (SpacetimeState.soften defaultState 2).energy = defaultState.energy := by
  constructor
  · exact (c10_frame_effects defaultState).2 Attr.w Attr.y Attr.energy 0.03
      (by intro a; cases a <;> constructor <;> norm_num [getAttr, defaultState])
      (by decide) (by decide)
  · exact (c10_frame_effects defaultState).1 2

/-! ## Helper lemmas: MemoryStore -/

theorem clamp_ge_07_iff (i : ℚ) :
    (0.7 : ℚ) ≤ max 0 (min 1 i) ↔ (0.7 : ℚ) ≤ i := by
  constructor
  · intro h
    rcases le_max_iff.mp h with h0 | hm
    · norm_num at h0
    · exact (le_min_iff.mp hm).2
  · intro h
    exact le_max_iff.mpr (Or.inr (le_min_iff.mpr ⟨by norm_num, h⟩))

theorem loadLine_setFile (s : MemoryStore) (F : List Line) (l : Line) :
    loadLine { s with file := F } l = { loadLine s l with file := F } := by
  cases l with
  | bad => rfl
  | good item =>
    simp only [loadLine]
    split_ifs <;> rfl

theorem foldl_loadLine_setFile (s : MemoryStore) (F : List Line)
    (ls : List Line) :
    ls.foldl loadLine { s with file := F } =
      { ls.foldl loadLine s with file := F } := by
  induction ls generalizing s with
  | nil => rfl
  | cons l t ih => simp only [List.foldl_cons, loadLine_setFile, ih]

theorem add_eq_loadLine (s : MemoryStore) (c : AddCall) :
    s.add c.ts c.role c.content c.importance =
      { loadLine s
          (Line.good ⟨c.ts, c.role, c.content, max 0 (min 1 c.importance)⟩) with
        file := s.file ++
          [Line.good ⟨c.ts, c.role, c.content, max 0 (min 1 c.importance)⟩] } := by
  simp only [MemoryStore.add, loadLine]
  by_cases hr : c.role = "summary"
  · simp [hr]
  · by_cases hi : (0.7 : ℚ) ≤ c.importance
    · simp [hr, hi, (clamp_ge_07_iff _).mpr hi]
    · have hnc : ¬ (0.7 : ℚ) ≤ max 0 (min 1 c.importance) :=
        fun h => hi ((clamp_ge_07_iff _).mp h)
      simp [hr, hi, hnc]

theorem add_file (s : MemoryStore) (c : AddCall) :
    (s.add c.ts c.role c.content c.importance).file =
      s.file ++
        [Line.good ⟨c.ts, c.role, c.content, max 0 (min 1 c.importance)⟩] := by
  rw [add_eq_loadLine]

theorem add_maxes (s : MemoryStore) (ts role content : String) (imp : ℚ) :
    (s.add ts role content imp).maxShort = s.maxShort ∧
    (s.add ts role content imp).maxMid = s.maxMid := by
  simp only [MemoryStore.add]
  split_ifs <;> exact ⟨rfl, rfl⟩

theorem replay_invariant (calls : List AddCall) :
    ∀ (maxS maxM : Nat) (s : MemoryStore), s.maxShort = maxS → s.maxMid = maxM →
      replayTiers maxS maxM s.file = { s with file := [] } →
      replayTiers maxS maxM (runAdds s calls).file =
        { runAdds s calls with file := [] } := by
  induction calls with
  | nil => intro maxS maxM s _ _ hinv; exact hinv
  | cons c rest ih =>
    intro maxS maxM s hS hM hinv
    have haddS := (add_maxes s c.ts c.role c.content c.importance).1
    have haddM := (add_maxes s c.ts c.role c.content c.importance).2
    have hfile := add_file s c
    have hstep : replayTiers maxS maxM
        (s.add c.ts c.role c.content c.importance).file =
        { s.add c.ts c.role c.content c.importance with file := [] } := by
      rw [hfile]
      unfold replayTiers
      rw [List.foldl_append]
      have hrt : s.file.foldl loadLine (emptyStore maxS maxM) =
          { s with file := [] } := hinv
      rw [hrt]
      simp only [List.foldl_cons, List.foldl_nil]
      rw [show ({ s with file := [] } : MemoryStore) =
            { s with file := ([] : List Line) } from rfl]
      rw [loadLine_setFile]
      rw [add_eq_loadLine]
    have := ih maxS maxM (s.add c.ts c.role c.content c.importance)
      (haddS.trans hS) (haddM.trans hM) hstep
    simpa [runAdds] using this

/-! ## Claim C9 -/

/-- C9: routing by the raw importance argument (which `add` compares with
0.7) and routing by the clamped stored importance (which log replay
compares with 0.7) agree for every importance, since
`0.7 ≤ max 0 (min 1 i) ↔ 0.7 ≤ i`; hence replaying the log line written by an
`add` call updates exactly the tiers the live `add` call updated. -/
theorem c9_routing_agree (s : MemoryStore) (ts role content : String)
    (imp : ℚ) :
    ((0.7 : ℚ) ≤ max 0 (min 1 imp) ↔ (0.7 : ℚ) ≤ imp) ∧
    (s.add ts role content imp).short_term =
      (loadLine s (Line.good ⟨ts, role, content, max 0 (min 1 imp)⟩)).short_term ∧
    (s.add ts role content imp).mid_term =
      (loadLine s (Line.good ⟨ts, role, content, max 0 (min 1 imp)⟩)).mid_term ∧
    (s.add ts role content imp).long_term =
      (loadLine s (Line.good ⟨ts, role, content, max 0 (min 1 imp)⟩)).long_term := by
  have h := add_eq_loadLine s ⟨ts, role, content, imp⟩
  refine ⟨clamp_ge_07_iff imp, ?_, ?_, ?_⟩ <;> rw [h]

/-! ## Claim C2 -/

/-- C2: `add(role, content, importance)` builds the entry with the given
(current-UTC) timestamp and importance clamped into `[0,1]`, places it in
exactly one tier — `mid_term` when the role is `summary`, else `long_term`
when `importance ≥ 0.7`, else `short_term` (a ring buffer that evicts its
oldest entry on overflow) — and unconditionally appends the entry as one
line to the durable log. -/
theorem c2_add_contract (s : MemoryStore) (ts role content : String)
    (imp : ℚ) :
    (0 ≤ max 0 (min 1 imp) ∧ max 0 (min 1 imp) ≤ 1) ∧
    (role = "summary" →
      s.add ts role content imp =
        { s with
            mid_term := ringAppend s.mid_term s.maxMid
              ⟨ts, role, content, max 0 (min 1 imp)⟩,
            file := s.file ++
              [Line.good ⟨ts, role, content, max 0 (min 1 imp)⟩] }) ∧
    (role ≠ "summary" → (0.7 : ℚ) ≤ imp →
      s.add ts role content imp =
        { s with
            long_term := s.long_term ++ [⟨ts, role, content, max 0 (min 1 imp)⟩],
            file := s.file ++
              [Line.good ⟨ts, role, content, max 0 (min 1 imp)⟩] }) ∧
    (role ≠ "summary" → ¬ (0.7 : ℚ) ≤ imp →
      s.add ts role content imp =
        { s with
            short_term := ringAppend s.short_term s.maxShort
              ⟨ts, role, content, max 0 (min 1 imp)⟩,
            file := s.file ++
              [Line.good ⟨ts, role, content, max 0 (min 1 imp)⟩] }) ∧
    (∀ (l : List MemoryItem) (x : MemoryItem), 0 < l.length →
      ringAppend l l.length x = l.tail ++ [x]) := by
  refine ⟨⟨le_max_left _ _, max_le (by norm_num) (min_le_left _ _)⟩,
    ?_, ?_, ?_, ?_⟩
  · intro hr; simp [MemoryStore.add, hr]
  · intro hr hi; simp [MemoryStore.add, hr, hi]
  · intro hr hi; simp [MemoryStore.add, hr, hi]
  · intro l x hl
    simp only [ringAppend, List.length_append, List.length_singleton]
    have h1 : l.length + 1 - l.length = 1 := by omega
    rw [h1, List.drop_append_of_le_length (by omega), List.drop_one]

/-- Witness for `c2_add_contract`: a concrete `summary` add on a fresh
store. -/
theorem c2_witness :
    MemoryStore.add (emptyStore 32 64) "t" "summary" "c" (1/2) =
      { emptyStore 32 64 with
          mid_term := ringAppend (emptyStore 32 64).mid_term
            (emptyStore 32 64).maxMid ⟨"t", "summary", "c", max 0 (min 1 (1/2))⟩,
          file := (emptyStore 32 64).file ++
            [Line.good ⟨"t", "summary", "c", max 0 (min 1 (1/2))⟩] } :=
  (c2_add_contract (emptyStore 32 64) "t" "summary" "c" (1/2)).2.1 rfl

/-! ## Claim C3 -/

/-- C3: (i) replaying the log file written by any sequence of `add` calls on
a fresh store reconstructs the very same store — every written entry
reappears with identical `ts, role, content, importance` in the tier the
live store placed it (including ring-buffer eviction), and the file itself
is unchanged (no new disk write during replay); (ii) a malformed line is
skipped individually; (iii) replay ignores exactly the malformed lines; and
(iv) a missing log file yields an empty store with no error. -/
theorem c3_roundtrip :
    (∀ (maxS maxM : Nat) (calls : List AddCall),
      loadStore maxS maxM (runAdds (emptyStore maxS maxM) calls).file =
        runAdds (emptyStore maxS maxM) calls) ∧
    (∀ s : MemoryStore, loadLine s Line.bad = s) ∧
    (∀ (maxS maxM : Nat) (lines : List Line),
      replayTiers maxS maxM lines =
        replayTiers maxS maxM (lines.filter Line.isGood)) ∧
    (∀ maxS maxM : Nat, loadStoreOpt maxS maxM none = emptyStore maxS maxM) := by
  refine ⟨?_, fun s => rfl, ?_, fun maxS maxM => rfl⟩
  · intro maxS maxM calls
    have h := replay_invariant calls maxS maxM (emptyStore maxS maxM) rfl rfl rfl
    unfold loadStore
    rw [h]
  · intro maxS maxM lines
    unfold replayTiers
    generalize emptyStore maxS maxM = s
    induction lines generalizing s with
    | nil => rfl
    | cons l t ih =>
      cases l with
      | bad => simpa [Line.isGood] using ih (loadLine s Line.bad)
      | good item => simpa [Line.isGood] using ih (loadLine s (Line.good item))

/-! ## Helper lemmas: trimming -/

theorem dropWhile_decomp (p : Char → Bool) (l : List Char) :
    ∃ t, l = t ++ l.dropWhile p := by
  induction l with
  | nil => exact ⟨[], rfl⟩
  | cons c t ih =>
    by_cases hc : p c
    · obtain ⟨t1, ht⟩ := ih
      refine ⟨c :: t1, ?_⟩
      simp only [List.dropWhile, hc, List.cons_append, List.cons.injEq,
        true_and]
      exact ht
    · exact ⟨[], by simp [List.dropWhile, hc]⟩

theorem trimBoth_decomp (cs : List Char) (l : List Char) :
    ∃ t1 t2, l = t1 ++ trimBothChars cs l ++ t2 := by
  obtain ⟨a, ha⟩ := dropWhile_decomp (fun c => cs.contains c) l
  obtain ⟨b, hb⟩ :=
    dropWhile_decomp (fun c => cs.contains c)
      (l.dropWhile (fun c => cs.contains c)).reverse
  refine ⟨a, b.reverse, ?_⟩
  unfold trimBothChars
  calc l = a ++ l.dropWhile (fun c => cs.contains c) := ha
    _ = a ++ ((l.dropWhile (fun c => cs.contains c)).reverse).reverse := by
        rw [List.reverse_reverse]
    _ = a ++ (b ++ ((l.dropWhile (fun c => cs.contains c)).reverse.dropWhile
          (fun c => cs.contains c))).reverse := by rw [← hb]
    _ = a ++ ((l.dropWhile (fun c => cs.contains c)).reverse.dropWhile
          (fun c => cs.contains c)).reverse ++ b.reverse := by
        rw [List.reverse_append, List.append_assoc]

theorem trim_decomp_str (s : String) :
    ∃ t1 t2, s.data = t1 ++ (pyTrim s).data ++ t2 := by
  obtain ⟨t1, t2, h⟩ := trimBoth_decomp pyWsChars s.data
  exact ⟨t1, t2, h⟩

theorem pyTrim_length_le (s : String) : (pyTrim s).length ≤ s.length := by
  obtain ⟨t1, t2, h⟩ := trim_decomp_str s
  have h2 := congrArg List.length h
  simp only [List.length_append] at h2
  show (pyTrim s).data.length ≤ s.data.length
  omega

theorem get_recall_eq_trunc (s : MemoryStore) (sample : List MemoryItem)
    (M : Nat) (h : M < (recallBlob s sample).data.length) (hM0 : M ≠ 0) :
    get_recall_snippet s sample M =
      pyTrim ⟨(recallBlob s sample).data.drop
        ((recallBlob s sample).data.length - M)⟩ := by
  simp only [get_recall_snippet, pyTailSlice]
  rw [if_pos h, if_neg hM0]

theorem get_recall_eq_notrunc (s : MemoryStore) (sample : List MemoryItem)
    (M : Nat) (h : ¬ M < (recallBlob s sample).data.length) :
    get_recall_snippet s sample M = pyTrim (recallBlob s sample) := by
  simp only [get_recall_snippet]
  rw [if_neg h]

/-! ## Claim C8 -/

/-- C8 (amended): for every bound `M ≥ 1`, `get_recall_snippet` returns at
most `M` characters, and when the untruncated blob exceeds `M` characters the
result is the trailing `M` characters of the blob *further stripped of
surrounding whitespace* by the final `.strip()` — hence a contiguous infix
(not, in general, the exact trailing-`M` tail) of the blob.  For `M = 0` the
Python slice `blob[-0:]` is the whole blob, so no truncation happens at
all. -/
theorem c8_recall_truncation (s : MemoryStore) (sample : List MemoryItem)
    (M : Nat) (hM : 1 ≤ M) :
    (get_recall_snippet s sample M).length ≤ M ∧
    (M < (recallBlob s sample).data.length →
      get_recall_snippet s sample M =
        pyTrim ⟨(recallBlob s sample).data.drop
          ((recallBlob s sample).data.length - M)⟩) ∧
    (∃ t1 t2, (recallBlob s sample).data =
      t1 ++ (get_recall_snippet s sample M).data ++ t2) := by
  by_cases h : M < (recallBlob s sample).data.length
  · have hM0 : M ≠ 0 := by omega
    have heq := get_recall_eq_trunc s sample M h hM0
    refine ⟨?_, fun _ => heq, ?_⟩
    · rw [heq]
      have h1 := pyTrim_length_le
        ⟨(recallBlob s sample).data.drop ((recallBlob s sample).data.length - M)⟩
      have h2 : ((recallBlob s sample).data.drop
          ((recallBlob s sample).data.length - M)).length = M := by
        rw [List.length_drop]
        omega
      calc (pyTrim ⟨(recallBlob s sample).data.drop
            ((recallBlob s sample).data.length - M)⟩).length
          ≤ ((recallBlob s sample).data.drop
            ((recallBlob s sample).data.length - M)).length := h1
        _ = M := h2
    · obtain ⟨a, b, hab⟩ := trim_decomp_str
        ⟨(recallBlob s sample).data.drop ((recallBlob s sample).data.length - M)⟩
      refine ⟨(recallBlob s sample).data.take
        ((recallBlob s sample).data.length - M) ++ a, b, ?_⟩
      rw [heq]
      calc (recallBlob s sample).data
          = (recallBlob s sample).data.take ((recallBlob s sample).data.length - M)
            ++ (recallBlob s sample).data.drop
              ((recallBlob s sample).data.length - M) :=
            (List.take_append_drop _ _).symm
        _ = (recallBlob s sample).data.take ((recallBlob s sample).data.length - M)
            ++ (a ++ (pyTrim ⟨(recallBlob s sample).data.drop
                ((recallBlob s sample).data.length - M)⟩).data ++ b) :=
            congrArg (fun t => (recallBlob s sample).data.take
              ((recallBlob s sample).data.length - M) ++ t) hab
        _ = ((recallBlob s sample).data.take
              ((recallBlob s sample).data.length - M) ++ a)
            ++ (pyTrim ⟨(recallBlob s sample).data.drop
                ((recallBlob s sample).data.length - M)⟩).data ++ b := by
            simp [List.append_assoc]
  · have heq := get_recall_eq_notrunc s sample M h
    push_neg at h
    refine ⟨?_, fun hlt => absurd hlt (by omega), ?_⟩
    · rw [heq]
      calc (pyTrim (recallBlob s sample)).length
          ≤ (recallBlob s sample).length := pyTrim_length_le _
        _ ≤ M := h
    · obtain ⟨a, b, hab⟩ := trim_decomp_str (recallBlob s sample)
      rw [heq]
      exact ⟨a, b, hab⟩

/-- C8 counterexample: with the concrete store `s8` (blob
`"[RECENT] user: hi"`, 17 characters): at `M = 0` the result keeps all 17
characters (Python `blob[-0:]` is the whole string, so nothing is cut), and
at `M = 3` the result is `"hi"`, not the exact trailing-3-characters tail
`" hi"` of the blob (the final `.strip()` removed the space). -/
theorem c8_counterexample :
    ¬ ((get_recall_snippet s8 [] 0).length ≤ 0) ∧
    ¬ (get_recall_snippet s8 [] 3 =
        ⟨(recallBlob s8 []).data.drop ((recallBlob s8 []).data.length - 3)⟩) := by
  constructor <;> decide

/-- Witness for `c8_recall_truncation` at the concrete store `s8`, `M = 3`. -/
theorem c8_witness : (get_recall_snippet s8 [] 3).length ≤ 3 :=
  (c8_recall_truncation s8 [] 3 (by norm_num)).1
/-! ## Helper lemmas: the reasoning engine turn -/

/-- Evaluation of a turn in which the council, draft and self-eval calls all
succeed. -/
theorem generateReplyE_ok {E : Type} (eng : Engine) (u : String)
    (llm : List Msg → Except E String) (smp : List MemoryItem) (ts : String)
    (tr : List String) (d t : String)
    (hc : councilPhase eng u llm = Except.ok tr)
    (hd : llm (mainMessages eng u smp tr) = Except.ok d)
    (hse : eng.enable_self_eval = true)
    (ht : llm (selfEvalMessages (pyTrim d) u) = Except.ok t) :
    generateReplyE eng u llm smp ts =
      Except.ok (extractFinal (pyTrim d) t,
        postTurnUpdate eng u (extractFinal (pyTrim d) t) llm ts) := by
  unfold generateReplyE
  rw [hc]
  simp only [bind, Except.bind, hd, hse, if_true, ht, Except.map]

/-- Evaluation of a turn with self-eval disabled. -/
theorem generateReplyE_ok_noeval {E : Type} (eng : Engine) (u : String)
    (llm : List Msg → Except E String) (smp : List MemoryItem) (ts : String)
    (tr : List String) (d : String)
    (hc : councilPhase eng u llm = Except.ok tr)
    (hd : llm (mainMessages eng u smp tr) = Except.ok d)
    (hse : eng.enable_self_eval = false) :
    generateReplyE eng u llm smp ts =
      Except.ok (pyTrim d, postTurnUpdate eng u (pyTrim d) llm ts) := by
  unfold generateReplyE
  rw [hc]
  simp only [bind, Except.bind, hd, hse, if_false, Bool.false_eq_true]

/-- With a never-raising generate function, every turn completes. -/
theorem generateReplyE_total {E : Type} (eng : Engine) (u : String)
    (llm : List Msg → Except E String) (smp : List MemoryItem) (ts : String)
    (hllm : ∀ ms, ∃ r, llm ms = Except.ok r) :
    ∃ fa, generateReplyE eng u llm smp ts =
      Except.ok (fa, postTurnUpdate eng u fa llm ts) := by
  have hcouncil : ∃ tr, councilPhase eng u llm = Except.ok tr := by
    by_cases hm : eng.enable_multi_agent
    · obtain ⟨c, hcc⟩ := hllm (councilMessages u)
      refine ⟨(if eng.enable_recursive then recursive_refine u 2 else [])
        ++ ["[COUNCIL]\n" ++ c], ?_⟩
      simp [councilPhase, hm, hcc, Except.map]
    · refine ⟨(if eng.enable_recursive then recursive_refine u 2 else []), ?_⟩
      simp [councilPhase, hm]
  obtain ⟨tr, hc⟩ := hcouncil
  obtain ⟨d, hd⟩ := hllm (mainMessages eng u smp tr)
  by_cases hse : eng.enable_self_eval
  · obtain ⟨t, ht⟩ := hllm (selfEvalMessages (pyTrim d) u)
    exact ⟨_, generateReplyE_ok eng u llm smp ts tr d t hc hd hse ht⟩
  · exact ⟨_, generateReplyE_ok_noeval eng u llm smp ts tr d hc hd
      (Bool.not_eq_true _ ▸ hse)⟩

/-- The dialog history after a completed turn is the 64-bounded append. -/
theorem postTurn_dialog {E : Type} (eng : Engine) (u fa : String)
    (llm : List Msg → Except E String) (ts : String) :
    (postTurnUpdate eng u fa llm ts).dialog_history =
      ringAppend eng.dialog_history 64 (u, fa) := rfl

/-- Length of a bounded `deque` append. -/
theorem ringAppend_length {α : Type} (l : List α) (n : Nat) (x : α) :
    (ringAppend l n x).length = min (l.length + 1) n := by
  simp only [ringAppend, List.length_drop, List.length_append,
    List.length_singleton]
  omega

/-- Dialog-history length after one completed turn. -/
theorem stepWith_dialog_len {E : Type} (llm : List Msg → Except E String)
    (u : String) (smp : List MemoryItem) (ts : String) (eng : Engine)
    (hllm : ∀ ms, ∃ r, llm ms = Except.ok r) :
    (stepWith llm u smp ts eng).dialog_history.length =
      min (eng.dialog_history.length + 1) 64 := by
  obtain ⟨fa, hfa⟩ := generateReplyE_total eng u llm smp ts hllm
  unfold stepWith engineAfterTurn
  rw [hfa, postTurn_dialog, ringAppend_length]

/-- Dialog-history length after `n` turns on a fresh engine: `min n 64`
(the `deque(maxlen=64)` caps it). -/
theorem iterate_dialog_len {E : Type} (llm : List Msg → Except E String)
    (u : String) (smp : List MemoryItem) (ts : String)
    (hllm : ∀ ms, ∃ r, llm ms = Except.ok r) :
    ∀ n, (((stepWith llm u smp ts)^[n]) defaultEngine).dialog_history.length =
      min n 64 := by
  intro n
  induction n with
  | zero => rfl
  | succ m ih =>
    rw [Function.iterate_succ_apply', stepWith_dialog_len llm u smp ts _ hllm,
      ih]
    omega

/-! ## Claim C5 -/

/-- C5: `generate_reply` raises if and only if the injected generate function
raises during the council pass, the draft call, or the self-eval call;
exceptions of the summarization call and all memory/disk failures (which the
embedding models as total operations, mirroring the source's local
`try/except` blocks) never propagate out of the turn. -/
theorem c5_failure_semantics (E : Type) (eng : Engine) (u : String)
    (llm : List Msg → Except E String) (smp : List MemoryItem) (ts : String)
    (e : E) :
    generateReplyE eng u llm smp ts = Except.error e ↔
      (councilPhase eng u llm = Except.error e ∨
       (∃ tr, councilPhase eng u llm = Except.ok tr ∧
          llm (mainMessages eng u smp tr) = Except.error e) ∨
       (∃ tr d, councilPhase eng u llm = Except.ok tr ∧
          llm (mainMessages eng u smp tr) = Except.ok d ∧
          eng.enable_self_eval = true ∧
          llm (selfEvalMessages (pyTrim d) u) = Except.error e)) := by
  unfold generateReplyE
  cases hc : councilPhase eng u llm with
  | error e2 =>
    simp only [hc, bind, Except.bind]
    simp [Except.error.injEq]
  | ok tr =>
    cases hd : llm (mainMessages eng u smp tr) with
    | error e2 =>
      simp only [hc, bind, Except.bind, hd]
      simp [hd]
    | ok d =>
      by_cases hse : eng.enable_self_eval
      · cases ht : llm (selfEvalMessages (pyTrim d) u) with
        | error e2 =>
          simp only [hc, bind, Except.bind, hd, hse, if_true, ht, Except.map]
          simp [hse, hd, ht]
        | ok t =>
          simp only [hc, bind, Except.bind, hd, hse, if_true, ht, Except.map]
          simp [hse, hd, ht]
      · simp only [hc, bind, Except.bind, hd, Bool.not_eq_true] at hse ⊢
        simp [hse, hd]

/-- Non-summary adds never touch `mid_term`. -/
theorem add_mid_of_role_ne (s : MemoryStore) (ts role content : String)
    (imp : ℚ) (h : role ≠ "summary") :
    (s.add ts role content imp).mid_term = s.mid_term := by
  simp only [MemoryStore.add]
  rw [if_neg h]
  split_ifs <;> rfl

/-- A summary add appends to the `mid_term` ring buffer. -/
theorem add_summary_mid (s : MemoryStore) (ts text : String) (w : ℚ) :
    (s.add ts "summary" text w).mid_term =
      ringAppend s.mid_term s.maxMid ⟨ts, "summary", text, max 0 (min 1 w)⟩ := by
  simp [MemoryStore.add]

/-! ## Claim C6 -/

/-- C6 (amended): the summary hook is gated on the dialog-history entry
count, which the `deque(maxlen=64)` caps at 64; so on a fresh engine the
`n`-th `generate_reply` call makes exactly one summarization attempt when
`min n 64` is a multiple of 6 — i.e. for `n ∈ {6, 12, …, 60}` — and none
otherwise (in particular never again after turn 63, even when `6 ∣ n`).
When an attempt happens and the generation stub's summary text is non-empty
after trimming whitespace, exactly one `summary`-role entry is appended to
the `mid_term` ring buffer (at stored importance 0.7). -/
theorem c6_summary_schedule :
    (∀ (E : Type) (llm : List Msg → Except E String) (u : String)
        (smp : List MemoryItem) (ts : String),
      (∀ ms, ∃ r, llm ms = Except.ok r) → ∀ n : Nat,
      summaryGate
          (((stepWith llm u smp ts)^[n]) defaultEngine).dialog_history =
        decide (min n 64 % 6 = 0)) ∧
    (∀ (E : Type) (eng : Engine) (u fa : String)
        (llm : List Msg → Except E String) (ts t : String),
      summaryGate (ringAppend eng.dialog_history 64 (u, fa)) = true →
      summarize_recent (ringAppend eng.dialog_history 64 (u, fa)) llm =
        Except.ok (some t) →
      t ≠ "" →
      (postTurnUpdate eng u fa llm ts).memory.mid_term =
        ringAppend eng.memory.mid_term eng.memory.maxMid
          ⟨ts, "summary", t, 0.7⟩) := by
  constructor
  · intro E llm u smp ts hllm n
    unfold summaryGate
    rw [iterate_dialog_len llm u smp ts hllm n]
    by_cases h : min n 64 % 6 = 0 <;> simp [h]
  · intro E eng u fa llm ts t hgate hsum hne
    unfold postTurnUpdate
    simp only [hgate, if_true, hsum]
    rw [if_neg hne]
    simp only [MemoryStore.promote_summary]
    rw [add_summary_mid]
    rw [add_mid_of_role_ne _ _ _ _ _ (by decide),
      add_mid_of_role_ne _ _ _ _ _ (by decide)]
    rw [(add_maxes _ _ _ _ _).2, (add_maxes _ _ _ _ _).2]
    norm_num

/-- C6 counterexample: on the 66th call (66 is a multiple of 6) the
dialog-history length is capped at 64 and `64 % 6 = 4 ≠ 0`, so no
summarization attempt is made, contradicting the claim's "every 6th turn"
for all `n`. -/
theorem c6_counterexample :
    66 % 6 = 0 ∧
    summaryGate (((stepWith (constLlm "sum") "hi" [] "T")^[66])
      defaultEngine).dialog_history = false := by
  refine ⟨by norm_num, ?_⟩
  unfold summaryGate
  rw [iterate_dialog_len (constLlm "sum") "hi" [] "T"
    (fun ms => ⟨"sum", rfl⟩) 66]
  decide

/-- Witness for `c6_summary_schedule`: the 6th call on a fresh engine does
fire the summarization gate. -/
theorem c6_witness :
    summaryGate (((stepWith (constLlm "ok") "hi" [] "T")^[6])
      defaultEngine).dialog_history = true := by
  have h := c6_summary_schedule.1 Unit (constLlm "ok") "hi" [] "T"
    (fun ms => ⟨"ok", rfl⟩) 6
  simpa using h

/-! ## Claim C4 -/

/-- C4 (amended): with self-eval enabled and all generate calls succeeding,
`generate_reply` returns `extractFinal` of the (whitespace-trimmed) draft and
the self-eval text, where: when the marker is absent the draft is returned
unchanged; when the marker is present, the text after its first occurrence is
stripped of `:` / space / newline characters **from both ends** (Python
`strip(" :\n")`, not only leading) and, when that remainder is non-empty,
the remainder (further `.strip()`ed) is the final answer; an empty remainder
keeps the draft. -/
theorem c4_marker_extraction (E : Type) (eng : Engine) (u : String)
    (llm : List Msg → Except E String) (smp : List MemoryItem) (ts : String)
    (tr : List String) (d t : String)
    (hse : eng.enable_self_eval = true)
    (hc : councilPhase eng u llm = Except.ok tr)
    (hd : llm (mainMessages eng u smp tr) = Except.ok d)
    (ht : llm (selfEvalMessages (pyTrim d) u) = Except.ok t) :
    (generateReplyE eng u llm smp ts).map Prod.fst =
      Except.ok (extractFinal (pyTrim d) t) ∧
    (firstOccur markerStr.data t.data = none →
      extractFinal (pyTrim d) t = pyTrim d) ∧
    (∀ i, firstOccur markerStr.data t.data = some i →
      (pyStripChars ⟨t.data.drop (i + markerStr.length)⟩ stripSet = "" →
        extractFinal (pyTrim d) t = pyTrim d) ∧
      (pyStripChars ⟨t.data.drop (i + markerStr.length)⟩ stripSet ≠ "" →
        extractFinal (pyTrim d) t =
          pyTrim (pyStripChars ⟨t.data.drop (i + markerStr.length)⟩ stripSet))) := by
  refine ⟨?_, ?_, ?_⟩
  · rw [generateReplyE_ok eng u llm smp ts tr d t hc hd hse ht]
    rfl
  · intro hnone
    unfold extractFinal
    rw [hnone]
  · intro i hi
    constructor
    · intro hempty
      unfold extractFinal
      rw [hi]
      have h0 : (pyStripChars ⟨t.data.drop (i + markerStr.length)⟩
          stripSet).data = [] := by rw [hempty]
      simp [h0]
    · intro hne
      unfold extractFinal
      rw [hi]
      have h0 : ¬ (pyStripChars ⟨t.data.drop (i + markerStr.length)⟩
          stripSet).data = [] := by
        intro h1
        exact hne (String.ext h1)
      simp [h0]

/-- C4 counterexample: for the self-eval response
`"ROMANAI_FINAL: improved text :"` the code returns `"improved text"` —
Python `strip(" :\n")` removed the *trailing* `" :"` as well — whereas the
claim's leading-only strip (`specLeadingExtract`, modelled from the claim's
words) predicts `"improved text :"`. -/
theorem c4_counterexample :
    (generateReplyE defaultEngine "hi"
        (constLlm "ROMANAI_FINAL: improved text :") [] "T").map Prod.fst =
      Except.ok "improved text" ∧
    specLeadingExtract "ROMANAI_FINAL: improved text :" = "improved text :" ∧
    ("improved text" : String) ≠ "improved text :" := by
  refine ⟨?_, by decide, by decide⟩
  rw [generateReplyE_ok defaultEngine "hi"
    (constLlm "ROMANAI_FINAL: improved text :") [] "T" _
    "ROMANAI_FINAL: improved text :" "ROMANAI_FINAL: improved text :"
    rfl rfl rfl rfl]
  have hx : extractFinal (pyTrim "ROMANAI_FINAL: improved text :")
      "ROMANAI_FINAL: improved text :" = "improved text" := by decide
  simp [Except.map, hx]

/-- Witness for `c4_marker_extraction` at a concrete engine and stub. -/
theorem c4_witness :
    (generateReplyE defaultEngine "hey" (constLlm "ROMANAI_FINAL: better")
        [] "T").map Prod.fst =
      Except.ok (extractFinal (pyTrim "ROMANAI_FINAL: better")
        "ROMANAI_FINAL: better") :=
  (c4_marker_extraction Unit defaultEngine "hey"
    (constLlm "ROMANAI_FINAL: better") [] "T" _
    "ROMANAI_FINAL: better" "ROMANAI_FINAL: better" rfl rfl rfl rfl).1

/-! ## Claim C7 -/

/-- The echo stub answers the draft call with the user text (the last
`user`-role message of the main sequence). -/
theorem echoLlm_mainMessages (eng : Engine) (u : String)
    (smp : List MemoryItem) (tr : List String) :
    echoLlm (mainMessages eng u smp tr) = Except.ok u := by
  unfold echoLlm mainMessages
  by_cases htr : tr.isEmpty <;>
    simp [htr, List.filter_append, List.filter]

/-- Empathy after the distress turn: `0.55 + 0.08 = 0.63`, then the
end-of-turn `soften(0.02)` pulls it toward `0.55`:
`0.63 + (0.55 - 0.63) * 0.02 = 0.6284`. -/
theorem postTurn_u7_x {E : Type} (fa : String)
    (llm : List Msg → Except E String) (ts : String) :
    (postTurnUpdate defaultEngine u7 fa llm ts).state.x = 0.6284 := by
  have hsad : containsAny (pyLower u7)
      ["sad", "scared", "afraid", "lonely", "hurt"] = true := by decide
  have hidea : containsAny (pyLower u7)
      ["idea", "story", "creative", "brainstorm"] = false := by decide
  unfold postTurnUpdate
  simp only [update_state_from_interaction, hsad, hidea, if_true, if_false,
    Bool.false_eq_true, SpacetimeState.rotate_plane, setAttr,
    SpacetimeState.clamp, SpacetimeState.soften, getAttr, defaultEngine,
    defaultState]
  split_ifs <;> norm_num

/-- The distress turn writes the user entry at importance 0.4 into
`short_term` (no importance keyword is present). -/
theorem postTurn_u7_short {E : Type} (fa : String)
    (llm : List Msg → Except E String) :
    (postTurnUpdate defaultEngine u7 fa llm "T").memory.short_term.head? =
      some ⟨"T", "user", u7, 0.4⟩ := by
  have himp : containsAny (pyLower u7)
      ["important", "remember", "my name", "my birthday", "my project"] =
        false := by decide
  unfold postTurnUpdate
  simp only [himp, Bool.false_eq_true, if_false]
  have hgate : summaryGate (ringAppend (defaultEngine).dialog_history 64
      (u7, fa)) = false := by
    simp [summaryGate, ringAppend, defaultEngine]
  simp only [hgate, Bool.false_eq_true, if_false]
  have h1 : ("user" : String) ≠ "summary" := by decide
  have h2 : ("assistant" : String) ≠ "summary" := by decide
  simp only [MemoryStore.add, defaultEngine, loadStoreOpt, emptyStore]
  norm_num [ringAppend, h1, h2]

/-- C7 counterexample: after the turn on `"I feel so sad and lonely
today"` with the echo stub, empathy is `0.6284`, not the claimed
`min 1 (0.55 + 0.08) = 0.63`: the `+0.08` bump is applied, but the
end-of-turn `relax(0.02)` then moves it toward 0.55. -/
theorem c7_counterexample :
    (generateReplyE defaultEngine u7 echoLlm [] "T").map
        (fun p => p.2.state.x) = Except.ok ((0.6284 : ℝ)) ∧
    (0.6284 : ℝ) ≠ min 1 (defaultEngine.state.x + 0.08) := by
  constructor
  · rw [generateReplyE_ok defaultEngine u7 echoLlm [] "T" _
      u7 (build_self_eval_prompt (pyTrim u7) u7) rfl
      (echoLlm_mainMessages defaultEngine u7 [] _) rfl rfl]
    simp only [Except.map]
    rw [postTurn_u7_x]
  · have : min (1 : ℝ) (defaultEngine.state.x + 0.08) = 0.63 := by
      rw [min_eq_right (by norm_num [defaultEngine, defaultState])]
      norm_num [defaultEngine, defaultState]
    rw [this]
    norm_num

/-- C7 (amended): for the turn with user text `"I feel so sad and lonely
today"` and an echoing stub, empathy is bumped by 0.08 (to 0.63, clamped at
1) and then relaxed by the end-of-turn `relax(0.02)` to exactly `0.6284` — a
strict increase from the prior 0.55, though not by exactly 0.08 — and a
memory entry with role `user` and importance 0.4 is appended to
`short_term`. -/
theorem c7_amended :
    (generateReplyE defaultEngine u7 echoLlm [] "T").map
        (fun p => (p.2.state.x, p.2.memory.short_term.head?)) =
      Except.ok ((0.6284 : ℝ), some ⟨"T", "user", u7, 0.4⟩) ∧
    defaultEngine.state.x < 0.6284 := by
  constructor
  · rw [generateReplyE_ok defaultEngine u7 echoLlm [] "T" _
      u7 (build_self_eval_prompt (pyTrim u7) u7) rfl
      (echoLlm_mainMessages defaultEngine u7 [] _) rfl rfl]
    simp only [Except.map]
    rw [postTurn_u7_x, postTurn_u7_short]
  · norm_num [defaultEngine, defaultState]

